import Mathlib

/-!
Verification development for the 10x15cm Photo Formatter.

The repository contains two near-duplicate Python programs
(`src/photo_formatter.py`, the current one, and `src/10x15_Photo_Formatter.py`,
the older one).  This file gives a shallow embedding of their computational
core and proves the specification claims about it.

Modelling conventions:
* Python `int` is `ℤ`; Python float arithmetic on the geometry path is
  idealised as exact rational arithmetic (`ℚ`); `2.54` is the rational
  `127/50`.
* Python's builtin `round` (round-half-to-even) is `pyRound`.
* A PIL image is modelled by its metadata that the program inspects:
  width, height, mode, the `"transparency" in info` marker, and the EXIF
  orientation tag (1–8; tags 5–8 swap width and height under
  `ImageOps.exif_transpose`).  Pixel contents are irrelevant to every claim.
* The batch driver `process_all` is embedded as a pure fold over the file
  list; the side effects it performs are represented explicitly: decoding a
  file either yields an image or raises (`Option PILImage`), and
  `canvas.save(dest)` — which writes directly to the final path — either
  succeeds, raises before the output file is created, or raises after
  creating it (leaving a partial file), since the code uses no
  temp-file-then-rename.
* The cancellation flag is a Boolean function of time, where time advances
  by one at each loop-iteration check; the flag is read once per iteration
  and once more for the final status message.
-/

namespace PhotoFormatter

/-- PIL image modes that the program distinguishes (`img.mode`). -/
inductive ImageMode where
  | RGB
  | RGBA
  | LA
  | L
  | P
deriving DecidableEq, Repr

/-- Shallow model of a PIL image: exactly the metadata the program reads. -/
structure PILImage where
  width : ℤ
  height : ℤ
  mode : ImageMode
  transparency : Bool
  exifTag : ℤ
deriving DecidableEq, Repr

/-- Model of `ImageOps.exif_transpose`: EXIF orientation tags 5–8 transpose
the image (swapping width and height); all tags are cleared (tag 1 =
normal) in the result. -/
def exif_transpose (img : PILImage) : PILImage :=
  if img.exifTag = 5 ∨ img.exifTag = 6 ∨ img.exifTag = 7 ∨ img.exifTag = 8 then
    { width := img.height, height := img.width, mode := img.mode,
      transparency := img.transparency, exifTag := 1 }
  else
    { img with exifTag := 1 }

/-- Model of `img.convert(mode)`: changes the color mode, keeps dimensions. -/
def PILImage.convert (img : PILImage) (m : ImageMode) : PILImage :=
  { img with mode := m }

/-- Python's builtin `round`: nearest integer, ties to even. -/
def pyRound (q : ℚ) : ℤ :=
  if Int.fract q < 1/2 then ⌊q⌋
  else if 1/2 < Int.fract q then ⌊q⌋ + 1
  else if ⌊q⌋ % 2 = 0 then ⌊q⌋ else ⌊q⌋ + 1

/-- `cm_to_px` from `src/photo_formatter.py`:
`inches = cm / 2.54; return int(round(inches * dpi))`. -/
def cm_to_px (cm : ℚ) (dpi : ℤ) : ℤ :=
  pyRound (cm / (127/50) * dpi)

/-- `compute_target_canvas` from `src/photo_formatter.py`: landscape images
(width ≥ height) get a 15cm×10cm canvas, portrait ones a 10cm×15cm canvas. -/
def compute_target_canvas (img_w img_h : ℤ) (dpi : ℤ) : ℤ × ℤ :=
  if img_w ≥ img_h then (cm_to_px 15 dpi, cm_to_px 10 dpi)
  else (cm_to_px 10 dpi, cm_to_px 15 dpi)

/-- Result of `fit_with_letterbox`: the returned canvas (dimensions and
mode) together with the size of the resized source and the paste offsets
used to center it. -/
structure FitResult where
  canvas_w : ℤ
  canvas_h : ℤ
  canvas_mode : ImageMode
  new_w : ℤ
  new_h : ℤ
  off_x : ℤ
  off_y : ℤ
  pasted_mode : ImageMode
deriving DecidableEq, Repr

/-- `fit_with_letterbox` from `src/photo_formatter.py`: EXIF-transpose,
normalise the mode (RGBA when alpha-capable, RGB otherwise), scale by
`min(target_w/src_w, target_h/src_h)`, resize to
`(max(1, floor(src_w*scale)), max(1, floor(src_h*scale)))`, create an RGB
canvas of exactly the target size and paste the resized image at
`((target_w-new_w)//2, (target_h-new_h)//2)` (Python `//` is floor
division, hence `Int.fdiv`). -/
def fit_with_letterbox (img : PILImage) (target_w target_h : ℤ) : FitResult :=
  let img1 := exif_transpose img
  let img2 := if img1.mode = ImageMode.RGBA ∨ img1.mode = ImageMode.LA ∨
      img1.transparency = true then img1.convert ImageMode.RGBA
    else img1.convert ImageMode.RGB
  let src_w := img2.width
  let src_h := img2.height
  let scale : ℚ := min ((target_w : ℚ) / (src_w : ℚ)) ((target_h : ℚ) / (src_h : ℚ))
  let new_w : ℤ := max 1 ⌊(src_w : ℚ) * scale⌋
  let new_h : ℤ := max 1 ⌊(src_h : ℚ) * scale⌋
  let resized := { img2 with width := new_w, height := new_h }
  let off_x := Int.fdiv (target_w - new_w) 2
  let off_y := Int.fdiv (target_h - new_h) 2
  { canvas_w := target_w, canvas_h := target_h, canvas_mode := ImageMode.RGB,
    new_w := new_w, new_h := new_h, off_x := off_x, off_y := off_y,
    pasted_mode := resized.mode }

/-- DPI validation performed by `App.start` in `src/photo_formatter.py`
before a run begins: `if not (72 <= dpi <= 1200): raise ValueError`. -/
def start_dpi_ok (dpi : ℤ) : Bool :=
  decide (72 ≤ dpi) && decide (dpi ≤ 1200)

end PhotoFormatter

namespace Legacy

open PhotoFormatter

/-- `cm_to_px` from the older `src/10x15_Photo_Formatter.py` (textually the
same body as the current one). -/
def cm_to_px (cm : ℚ) (dpi : ℤ) : ℤ :=
  pyRound (cm / (127/50) * dpi)

/-- `compute_target_canvas` from the older `src/10x15_Photo_Formatter.py`. -/
def compute_target_canvas (img_w img_h : ℤ) (dpi : ℤ) : ℤ × ℤ :=
  if img_w ≥ img_h then (cm_to_px 15 dpi, cm_to_px 10 dpi)
  else (cm_to_px 10 dpi, cm_to_px 15 dpi)

/-- `fit_with_letterbox` from the older `src/10x15_Photo_Formatter.py`
(same algorithm, stated on the shared image model). -/
def fit_with_letterbox (img : PILImage) (target_w target_h : ℤ) : FitResult :=
  let img1 := exif_transpose img
  let img2 := if img1.mode = ImageMode.RGBA ∨ img1.mode = ImageMode.LA ∨
      img1.transparency = true then img1.convert ImageMode.RGBA
    else img1.convert ImageMode.RGB
  let src_w := img2.width
  let src_h := img2.height
  let scale : ℚ := min ((target_w : ℚ) / (src_w : ℚ)) ((target_h : ℚ) / (src_h : ℚ))
  let new_w : ℤ := max 1 ⌊(src_w : ℚ) * scale⌋
  let new_h : ℤ := max 1 ⌊(src_h : ℚ) * scale⌋
  let resized := { img2 with width := new_w, height := new_h }
  let off_x := Int.fdiv (target_w - new_w) 2
  let off_y := Int.fdiv (target_h - new_h) 2
  { canvas_w := target_w, canvas_h := target_h, canvas_mode := ImageMode.RGB,
    new_w := new_w, new_h := new_h, off_x := off_x, off_y := off_y,
    pasted_mode := resized.mode }

end Legacy

namespace PhotoFormatter

/-! ### Properties of Python rounding -/

theorem pyRound_le (q : ℚ) : (pyRound q : ℚ) ≤ q + 1/2 := by
  have h1 : (⌊q⌋ : ℚ) + Int.fract q = q := Int.floor_add_fract q
  have h2 : 0 ≤ Int.fract q := Int.fract_nonneg q
  have h3 : Int.fract q < 1 := Int.fract_lt_one q
  unfold pyRound
  split_ifs <;> push_cast <;> linarith

theorem pyRound_ge (q : ℚ) : q - 1/2 ≤ (pyRound q : ℚ) := by
  have h1 : (⌊q⌋ : ℚ) + Int.fract q = q := Int.floor_add_fract q
  have h2 : 0 ≤ Int.fract q := Int.fract_nonneg q
  have h3 : Int.fract q < 1 := Int.fract_lt_one q
  unfold pyRound
  split_ifs <;> push_cast <;> linarith

theorem pyRound_mono {a b : ℚ} (h : a ≤ b) : pyRound a ≤ pyRound b := by
  by_contra hlt
  push_neg at hlt
  have hint : pyRound b + 1 ≤ pyRound a := hlt
  have hcast : (pyRound b : ℚ) + 1 ≤ (pyRound a : ℚ) := by exact_mod_cast hint
  have hab : a = b := le_antisymm h
    (by linarith [pyRound_le a, pyRound_ge b])
  rw [hab] at hlt
  exact lt_irrefl _ hlt

theorem pyRound_eq_of_lt_half {q : ℚ} {m : ℤ} (hm : ⌊q⌋ = m) (h : q - m < 1/2) :
    pyRound q = m := by
  have hfr : Int.fract q = q - m := by rw [Int.fract, hm]
  unfold pyRound
  rw [hfr, hm, if_pos h]

theorem pyRound_eq_of_gt_half {q : ℚ} {m : ℤ} (hm : ⌊q⌋ = m) (h : 1/2 < q - m) :
    pyRound q = m + 1 := by
  have hfr : Int.fract q = q - m := by rw [Int.fract, hm]
  unfold pyRound
  rw [hfr, hm, if_neg (by linarith), if_pos h]

theorem pyRound_floor_le (q : ℚ) : ⌊q⌋ ≤ pyRound q := by
  unfold pyRound
  split_ifs <;> omega

/-! ### Concrete pixel values at DPI 300 -/

theorem cm_to_px_15_300 : cm_to_px 15 300 = 1772 := by
  have hm : ⌊(15:ℚ) / (127/50) * 300⌋ = 1771 := by
    rw [Int.floor_eq_iff]; norm_num
  exact pyRound_eq_of_gt_half hm (by norm_num)

theorem cm_to_px_10_300 : cm_to_px 10 300 = 1181 := by
  have hm : ⌊(10:ℚ) / (127/50) * 300⌋ = 1181 := by
    rw [Int.floor_eq_iff]; norm_num
  exact pyRound_eq_of_lt_half hm (by norm_num)

end PhotoFormatter

namespace PhotoFormatter

/-! ### Letterbox geometry lemmas -/

theorem letterbox_floor_le {s t : ℤ} (hs : 1 ≤ s) (q : ℚ) (hq : q ≤ (t : ℚ) / (s : ℚ)) :
    ⌊(s : ℚ) * q⌋ ≤ t := by
  have hs0 : (0 : ℚ) < (s : ℚ) := by exact_mod_cast hs.trans_lt' (by norm_num)
  have h1 : (s : ℚ) * q ≤ (s : ℚ) * ((t : ℚ) / (s : ℚ)) :=
    mul_le_mul_of_nonneg_left hq hs0.le
  have h2 : (s : ℚ) * ((t : ℚ) / (s : ℚ)) = (t : ℚ) := by
    rw [mul_comm]
    exact div_mul_cancel₀ _ hs0.ne'
  calc ⌊(s : ℚ) * q⌋ ≤ ⌊(t : ℚ)⌋ := Int.floor_mono (h1.trans h2.le)
    _ = t := Int.floor_intCast t

theorem fdiv_two_nonneg {a : ℤ} (ha : 0 ≤ a) : 0 ≤ Int.fdiv a 2 :=
  Int.fdiv_nonneg ha (by norm_num)

theorem fdiv_two_le_self {a : ℤ} (ha : 0 ≤ a) : Int.fdiv a 2 ≤ a := by
  rw [Int.fdiv_eq_ediv _ (by norm_num)]
  exact Int.ediv_le_self _ ha

/-- Evaluation of `fit_with_letterbox` on an image whose EXIF orientation
tag is 1 (normal), as produced by the driver's prior `exif_transpose`. -/
theorem fit_with_letterbox_eval (img : PILImage) (tw th : ℤ) (ht : img.exifTag = 1) :
    fit_with_letterbox img tw th =
      { canvas_w := tw, canvas_h := th, canvas_mode := ImageMode.RGB,
        new_w := max 1 ⌊(img.width : ℚ) *
          min ((tw : ℚ) / (img.width : ℚ)) ((th : ℚ) / (img.height : ℚ))⌋,
        new_h := max 1 ⌊(img.height : ℚ) *
          min ((tw : ℚ) / (img.width : ℚ)) ((th : ℚ) / (img.height : ℚ))⌋,
        off_x := Int.fdiv (tw - max 1 ⌊(img.width : ℚ) *
          min ((tw : ℚ) / (img.width : ℚ)) ((th : ℚ) / (img.height : ℚ))⌋) 2,
        off_y := Int.fdiv (th - max 1 ⌊(img.height : ℚ) *
          min ((tw : ℚ) / (img.width : ℚ)) ((th : ℚ) / (img.height : ℚ))⌋) 2,
        pasted_mode := if img.mode = ImageMode.RGBA ∨ img.mode = ImageMode.LA ∨
          img.transparency = true then ImageMode.RGBA else ImageMode.RGB } := by
  unfold fit_with_letterbox exif_transpose PILImage.convert
  rw [if_neg (by simp [ht])]
  dsimp only
  by_cases hc : img.mode = ImageMode.RGBA ∨ img.mode = ImageMode.LA ∨
      img.transparency = true
  · simp only [if_pos hc]
  · simp only [if_neg hc]

end PhotoFormatter

namespace Spec2Proof

open PhotoFormatter

/-- C1: for every source image with `src_w ≥ 1`, `src_h ≥ 1` (EXIF-normal,
as the driver hands it to the compositor) and target canvas dimensions
`≥ 1`, `fit_with_letterbox` returns a canvas of exactly `target_w × target_h`
in RGB mode (3 channels, no alpha); the source is resized to
`(max(1, ⌊src_w·scale⌋), max(1, ⌊src_h·scale⌋))` with
`scale = min(target_w/src_w, target_h/src_h)` and pasted at offsets
`((target_w-new_w)//2, (target_h-new_h)//2)`; the pasted bounding box lies
entirely within the canvas, so nothing is cropped. -/
theorem C1_compositor_letterbox (img : PILImage) (tw th : ℤ)
    (hw : 1 ≤ img.width) (hh : 1 ≤ img.height) (ht : img.exifTag = 1)
    (htw : 1 ≤ tw) (hth : 1 ≤ th) :
    (fit_with_letterbox img tw th).canvas_w = tw ∧
    (fit_with_letterbox img tw th).canvas_h = th ∧
    (fit_with_letterbox img tw th).canvas_mode = ImageMode.RGB ∧
    (fit_with_letterbox img tw th).new_w = max 1 ⌊(img.width : ℚ) *
      min ((tw : ℚ) / (img.width : ℚ)) ((th : ℚ) / (img.height : ℚ))⌋ ∧
    (fit_with_letterbox img tw th).new_h = max 1 ⌊(img.height : ℚ) *
      min ((tw : ℚ) / (img.width : ℚ)) ((th : ℚ) / (img.height : ℚ))⌋ ∧
    (fit_with_letterbox img tw th).off_x =
      Int.fdiv (tw - (fit_with_letterbox img tw th).new_w) 2 ∧
    (fit_with_letterbox img tw th).off_y =
      Int.fdiv (th - (fit_with_letterbox img tw th).new_h) 2 ∧
    0 ≤ (fit_with_letterbox img tw th).off_x ∧
    0 ≤ (fit_with_letterbox img tw th).off_y ∧
    (fit_with_letterbox img tw th).off_x + (fit_with_letterbox img tw th).new_w ≤ tw ∧
    (fit_with_letterbox img tw th).off_y + (fit_with_letterbox img tw th).new_h ≤ th := by
  rw [fit_with_letterbox_eval img tw th ht]
  dsimp only
  have hnw : max 1 ⌊(img.width : ℚ) *
      min ((tw : ℚ) / (img.width : ℚ)) ((th : ℚ) / (img.height : ℚ))⌋ ≤ tw :=
    max_le htw (letterbox_floor_le hw _ (min_le_left _ _))
  have hnh : max 1 ⌊(img.height : ℚ) *
      min ((tw : ℚ) / (img.width : ℚ)) ((th : ℚ) / (img.height : ℚ))⌋ ≤ th :=
    max_le hth (letterbox_floor_le hh _ (min_le_right _ _))
  refine ⟨rfl, rfl, rfl, rfl, rfl, rfl, rfl, ?_, ?_, ?_, ?_⟩
  · exact fdiv_two_nonneg (by omega)
  · exact fdiv_two_nonneg (by omega)
  · have := fdiv_two_le_self (a := tw - max 1 ⌊(img.width : ℚ) *
      min ((tw : ℚ) / (img.width : ℚ)) ((th : ℚ) / (img.height : ℚ))⌋) (by omega)
    omega
  · have := fdiv_two_le_self (a := th - max 1 ⌊(img.height : ℚ) *
      min ((tw : ℚ) / (img.width : ℚ)) ((th : ℚ) / (img.height : ℚ))⌋) (by omega)
    omega

/-- Witness for C1 at a concrete input: a 400×300 RGB source on the
landscape 1772×1181 canvas. -/
theorem C1_compositor_letterbox_witness :
    (1 : ℤ) ≤ 400 ∧
    0 ≤ (fit_with_letterbox ⟨400, 300, ImageMode.RGB, false, 1⟩ 1772 1181).off_x ∧
    (fit_with_letterbox ⟨400, 300, ImageMode.RGB, false, 1⟩ 1772 1181).off_x +
      (fit_with_letterbox ⟨400, 300, ImageMode.RGB, false, 1⟩ 1772 1181).new_w ≤ 1772 :=
  ⟨by decide,
   (C1_compositor_letterbox ⟨400, 300, ImageMode.RGB, false, 1⟩ 1772 1181
     (by decide) (by decide) rfl (by decide) (by decide)).2.2.2.2.2.2.2.1,
   (C1_compositor_letterbox ⟨400, 300, ImageMode.RGB, false, 1⟩ 1772 1181
     (by decide) (by decide) rfl (by decide) (by decide)).2.2.2.2.2.2.2.2.2.1⟩

end Spec2Proof

namespace Spec2Proof

open PhotoFormatter

/-- C2: canvas selection returns the Landscape 15cm×10cm canvas whenever
`width ≥ height` (including the square tie), and the Portrait 10cm×15cm
canvas whenever `width < height`. -/
theorem C2_canvas_selection (w h dpi : ℤ) :
    (h ≤ w → compute_target_canvas w h dpi = (cm_to_px 15 dpi, cm_to_px 10 dpi)) ∧
    (w < h → compute_target_canvas w h dpi = (cm_to_px 10 dpi, cm_to_px 15 dpi)) := by
  constructor
  · intro hle
    unfold compute_target_canvas
    rw [if_pos hle]
  · intro hlt
    unfold compute_target_canvas
    rw [if_neg (not_le.mpr hlt)]

/-- Witness for C2: a square 500×500 image selects the Landscape canvas and
a 400×500 portrait image selects the Portrait canvas. -/
theorem C2_canvas_selection_witness :
    compute_target_canvas 500 500 300 = (cm_to_px 15 300, cm_to_px 10 300) ∧
    compute_target_canvas 400 500 300 = (cm_to_px 10 300, cm_to_px 15 300) :=
  ⟨(C2_canvas_selection 500 500 300).1 (by decide),
   (C2_canvas_selection 400 500 300).2 (by decide)⟩

/-- C3: `cm_to_px` rounds `(length_cm / 2.54) * dpi` to an integer (within
half a pixel, ties to even); at DPI 300 the Landscape canvas is 1772×1181
pixels and the Portrait canvas is 1181×1772 pixels. -/
theorem C3_pixel_conversion :
    (∀ (cm : ℚ) (dpi : ℤ), |(cm_to_px cm dpi : ℚ) - cm / (127/50) * dpi| ≤ 1/2) ∧
    cm_to_px 15 300 = 1772 ∧ cm_to_px 10 300 = 1181 ∧
    (∀ w h : ℤ, h ≤ w → compute_target_canvas w h 300 = (1772, 1181)) ∧
    (∀ w h : ℤ, w < h → compute_target_canvas w h 300 = (1181, 1772)) := by
  refine ⟨?_, cm_to_px_15_300, cm_to_px_10_300, ?_, ?_⟩
  · intro cm dpi
    unfold cm_to_px
    rw [abs_le]
    constructor
    · linarith [pyRound_ge (cm / (127/50) * dpi)]
    · linarith [pyRound_le (cm / (127/50) * dpi)]
  · intro w h hle
    unfold compute_target_canvas
    rw [if_pos hle, cm_to_px_15_300, cm_to_px_10_300]
  · intro w h hlt
    unfold compute_target_canvas
    rw [if_neg (not_le.mpr hlt), cm_to_px_15_300, cm_to_px_10_300]

/-- Witness for C3: the landscape canvas of a 1200×800 image at DPI 300 is
1772×1181 pixels, of an 800×1200 image 1181×1772 pixels. -/
theorem C3_pixel_conversion_witness :
    compute_target_canvas 1200 800 300 = (1772, 1181) ∧
    compute_target_canvas 800 1200 300 = (1181, 1772) :=
  ⟨C3_pixel_conversion.2.2.2.1 1200 800 (by decide),
   C3_pixel_conversion.2.2.2.2 800 1200 (by decide)⟩

/-- Counterexample to C8: at DPI −300 ≤ 0, `cm_to_px` returns the value
−1181 instead of failing with an InvalidInput error — its body
`int(round((cm / 2.54) * dpi))` contains no DPI validation at all. -/
theorem C8_counterexample_no_validation : cm_to_px 10 (-300) = -1181 := by
  unfold cm_to_px
  push_cast
  have hm : ⌊(10:ℚ) / (127/50) * (-300)⌋ = -1182 := by
    rw [Int.floor_eq_iff]; norm_num
  rw [pyRound_eq_of_gt_half hm (by push_cast; norm_num)]
  norm_num

/-- C8 as amended: `cm_to_px` is a total pure function that never raises:
it returns a value for every DPI, positive or not (a non-negative pixel
count whenever `cm ≥ 0` and `dpi > 0`).  The DPI ≤ 0 guard lives in the
caller instead: `App.start` rejects any DPI outside 72…1200 before a run
begins, so `cm_to_px` is never reached with a non-positive DPI. -/
theorem C8_total_and_caller_validates :
    (∀ (cm : ℚ) (dpi : ℤ), 0 ≤ cm → 0 < dpi → 0 ≤ cm_to_px cm dpi) ∧
    (∀ dpi : ℤ, start_dpi_ok dpi = true → 0 < dpi) := by
  constructor
  · intro cm dpi hcm hdpi
    have hq : (0:ℚ) ≤ cm / (127/50) * dpi := by
      have : (0:ℚ) ≤ (dpi : ℚ) := by exact_mod_cast hdpi.le
      positivity
    have hfl : 0 ≤ ⌊cm / (127/50) * dpi⌋ := Int.floor_nonneg.mpr hq
    exact hfl.trans (pyRound_floor_le _)
  · intro dpi hok
    have h72 : (72:ℤ) ≤ dpi := by
      simpa using (Bool.and_eq_true_iff.mp hok).1
    omega

/-- Witness for C8 as amended: DPI 300 passes the caller's validation, is
positive, and yields a non-negative pixel count. -/
theorem C8_total_and_caller_validates_witness :
    start_dpi_ok 300 = true ∧ (0:ℤ) < 300 ∧ 0 ≤ cm_to_px 10 300 :=
  ⟨by decide, C8_total_and_caller_validates.2 300 (by decide),
   C8_total_and_caller_validates.1 10 300 (by norm_num) (by decide)⟩

/-- C9: for a fixed positive physical length, `cm_to_px` is monotonically
non-decreasing in the DPI. -/
theorem C9_monotone_in_dpi (cm : ℚ) (d1 d2 : ℤ)
    (hcm : 0 < cm) (_hd1 : 0 < d1) (h12 : d1 ≤ d2) :
    cm_to_px cm d1 ≤ cm_to_px cm d2 := by
  unfold cm_to_px
  apply pyRound_mono
  have hc : (0:ℚ) ≤ cm / (127/50) := by positivity
  have hd : (d1 : ℚ) ≤ (d2 : ℚ) := by exact_mod_cast h12
  exact mul_le_mul_of_nonneg_left hd hc

/-- Witness for C9 at 10 cm, DPI 300 ≤ 600. -/
theorem C9_monotone_in_dpi_witness :
    (0:ℚ) < 10 ∧ (0:ℤ) < 300 ∧ cm_to_px 10 300 ≤ cm_to_px 10 600 :=
  ⟨by norm_num, by decide,
   C9_monotone_in_dpi 10 300 600 (by norm_num) (by decide) (by decide)⟩

/-- C10: the three pure core functions duplicated across the two source
files (`cm_to_px`, `compute_target_canvas`, `fit_with_letterbox`) are
extensionally equal: on every input the older `10x15_Photo_Formatter.py`
version computes the same result as the current `photo_formatter.py`
version. -/
theorem C10_duplicated_core_equal :
    (∀ (cm : ℚ) (dpi : ℤ), Legacy.cm_to_px cm dpi = cm_to_px cm dpi) ∧
    (∀ w h dpi : ℤ, Legacy.compute_target_canvas w h dpi = compute_target_canvas w h dpi) ∧
    (∀ (img : PILImage) (tw th : ℤ),
      Legacy.fit_with_letterbox img tw th = fit_with_letterbox img tw th) :=
  ⟨fun _ _ => rfl, fun _ _ _ => rfl, fun _ _ _ => rfl⟩

end Spec2Proof

namespace PhotoFormatter

/-! ### Output naming

The driver builds output names with Python f-strings:
`f"{base}_10x15.jpg"` first, then `f"{base}_10x15_{counter}.jpg"` for
`counter = 1, 2, ...` until the name does not exist in the destination
directory.  Decimal formatting of the counter is modelled by `pyStr`
(fuel-based so that it evaluates in the kernel); the destination-directory
snapshot is the list of names it contains. -/

/-- Little-endian decimal digits of `n` (empty for 0); `fuel` bounds the
recursion depth and any `fuel ≥ n` is enough. -/
def toDigitsRev : ℕ → ℕ → List ℕ
  | 0, _ => []
  | fuel + 1, n => if n = 0 then [] else n % 10 :: toDigitsRev fuel (n / 10)

/-- Decimal rendering of a natural number, as Python `str` produces it. -/
def pyStr (n : ℕ) : String :=
  if n = 0 then "0" else ⟨((toDigitsRev n n).map Nat.digitChar).reverse⟩

/-- Numeric value of a decimal digit character. -/
def digitVal (c : Char) : ℕ := c.toNat - 48

/-- Value of a little-endian digit list. -/
def decodeRev : List ℕ → ℕ
  | [] => 0
  | d :: ds => d + 10 * decodeRev ds

theorem decodeRev_toDigitsRev : ∀ fuel n, n ≤ fuel → decodeRev (toDigitsRev fuel n) = n := by
  intro fuel
  induction fuel with
  | zero =>
    intro n hn
    have h0 : n = 0 := Nat.le_zero.mp hn
    subst h0
    rfl
  | succ fuel ih =>
    intro n hn
    unfold toDigitsRev
    by_cases h0 : n = 0
    · subst h0; rfl
    · rw [if_neg h0]
      unfold decodeRev
      rw [ih (n / 10) (by omega)]
      omega

theorem toDigitsRev_lt_ten : ∀ fuel n d, d ∈ toDigitsRev fuel n → d < 10 := by
  intro fuel
  induction fuel with
  | zero => intro n d hd; simp [toDigitsRev] at hd
  | succ fuel ih =>
    intro n d hd
    unfold toDigitsRev at hd
    by_cases h0 : n = 0
    · rw [if_pos h0] at hd; simp at hd
    · rw [if_neg h0] at hd
      rcases List.mem_cons.mp hd with h | h
      · omega
      · exact ih _ _ h

theorem toDigitsRev_ne_nil {n : ℕ} (h : n ≠ 0) : toDigitsRev n n ≠ [] := by
  cases n with
  | zero => exact absurd rfl h
  | succ m =>
    unfold toDigitsRev
    rw [if_neg h]
    simp

/-- Inverse of `pyStr`. -/
def decodeStr (s : String) : ℕ := decodeRev ((s.data.map digitVal).reverse)

theorem digitVal_digitChar {d : ℕ} (hd : d < 10) : digitVal (Nat.digitChar d) = d := by
  interval_cases d <;> rfl

theorem decodeStr_pyStr (n : ℕ) : decodeStr (pyStr n) = n := by
  unfold pyStr
  by_cases h0 : n = 0
  · subst h0; rfl
  · rw [if_neg h0]
    unfold decodeStr
    show decodeRev (((((toDigitsRev n n).map Nat.digitChar).reverse).map digitVal).reverse) = n
    rw [List.map_reverse, List.reverse_reverse, List.map_map]
    have hmap : (toDigitsRev n n).map (digitVal ∘ Nat.digitChar) = toDigitsRev n n := by
      conv_rhs => rw [← List.map_id (toDigitsRev n n)]
      apply List.map_congr_left
      intro d hd
      exact digitVal_digitChar (toDigitsRev_lt_ten _ _ _ hd)
    rw [hmap]
    exact decodeRev_toDigitsRev n n le_rfl

theorem pyStr_injective : Function.Injective pyStr :=
  Function.LeftInverse.injective decodeStr_pyStr

theorem pyStr_data_len_pos {k : ℕ} (hk : k ≠ 0) : 1 ≤ (pyStr k).data.length := by
  unfold pyStr
  rw [if_neg hk]
  have := toDigitsRev_ne_nil hk
  simp only [String.data]
  rw [List.length_reverse, List.length_map]
  exact List.length_pos.mpr this

/-- The sequence of output names probed for a given source stem:
`stem_10x15.jpg`, then `stem_10x15_1.jpg`, `stem_10x15_2.jpg`, … -/
def candidate (base : String) (k : ℕ) : String :=
  if k = 0 then base ++ "_10x15.jpg"
  else base ++ "_10x15_" ++ pyStr k ++ ".jpg"

theorem candidate_injective (base : String) : Function.Injective (candidate base) := by
  intro i j hij
  unfold candidate at hij
  by_cases hi : i = 0 <;> by_cases hj : j = 0
  · omega
  · exfalso
    rw [if_pos hi, if_neg hj] at hij
    have hd := congrArg String.data hij
    simp only [String.data_append, List.append_assoc] at hd
    have hd2 := List.append_cancel_left hd
    have hlen := congrArg List.length hd2
    have hp := pyStr_data_len_pos hj
    simp [List.length_append] at hlen
  · exfalso
    rw [if_neg hi, if_pos hj] at hij
    have hd := congrArg String.data hij
    simp only [String.data_append, List.append_assoc] at hd
    have hd2 := List.append_cancel_left hd
    have hlen := congrArg List.length hd2
    have hp := pyStr_data_len_pos hi
    simp [List.length_append] at hlen
  · rw [if_neg hi, if_neg hj] at hij
    have hd := congrArg String.data hij
    simp only [String.data_append, List.append_assoc] at hd
    have hd2 := List.append_cancel_left (List.append_cancel_left hd)
    have hd3 := List.append_cancel_right hd2
    exact pyStr_injective (by apply String.ext; exact hd3)

/-- The collision-probing loop from `process_all`
(`while dest.exists(): counter += 1`), with explicit fuel; the driver calls
it with fuel `|dest| + 1`, which always suffices because the probed names
are pairwise distinct. -/
def probe (base : String) (dest : List String) : ℕ → ℕ → String
  | 0, k => candidate base k
  | fuel + 1, k =>
    if candidate base k ∈ dest then probe base dest fuel (k + 1)
    else candidate base k

/-- Output-name derivation for one file: the first name of the candidate
sequence that is not already present in the destination snapshot. -/
def next_free_name (base : String) (dest : List String) : String :=
  probe base dest (dest.length + 1) 0

theorem probe_eq_of_least (base : String) (dest : List String) :
    ∀ fuel n k, n ≤ k → k < n + fuel → candidate base k ∉ dest →
      (∀ j, n ≤ j → j < k → candidate base j ∈ dest) →
      probe base dest fuel n = candidate base k := by
  intro fuel
  induction fuel with
  | zero => intro n k h1 h2; omega
  | succ fuel ih =>
    intro n k h1 h2 hk hmin
    unfold probe
    by_cases hn : candidate base n ∈ dest
    · rw [if_pos hn]
      have hne : n ≠ k := fun h => hk (h ▸ hn)
      exact ih (n + 1) k (by omega) (by omega) hk (fun j hj1 hj2 => hmin j (by omega) hj2)
    · rw [if_neg hn]
      by_cases hnk : n = k
      · rw [hnk]
      · exact absurd (hmin n le_rfl (by omega)) hn

theorem exists_free_candidate (base : String) (dest : List String) :
    ∃ k, k ≤ dest.length ∧ candidate base k ∉ dest := by
  by_contra hcon
  push_neg at hcon
  have hsub : ((List.range (dest.length + 1)).map (candidate base)) ⊆ dest := by
    intro x hx
    obtain ⟨k, hk, rfl⟩ := List.mem_map.mp hx
    exact hcon k (by simpa using Nat.lt_succ_iff.mp (List.mem_range.mp hk))
  have hnd : ((List.range (dest.length + 1)).map (candidate base)).Nodup :=
    (List.nodup_range _).map (candidate_injective base)
  have hle := (hnd.subperm hsub).length_le
  simp only [List.length_map, List.length_range] at hle
  omega

theorem next_free_name_eq_least (base : String) (dest : List String) (k : ℕ)
    (hk : candidate base k ∉ dest) (hmin : ∀ j < k, candidate base j ∈ dest) :
    next_free_name base dest = candidate base k := by
  have hkle : k ≤ dest.length := by
    by_contra hgt
    push_neg at hgt
    have hsub : ((List.range k).map (candidate base)) ⊆ dest := by
      intro x hx
      obtain ⟨j, hj, rfl⟩ := List.mem_map.mp hx
      exact hmin j (List.mem_range.mp hj)
    have hnd : ((List.range k).map (candidate base)).Nodup :=
      (List.nodup_range _).map (candidate_injective base)
    have hle := (hnd.subperm hsub).length_le
    simp only [List.length_map, List.length_range] at hle
    omega
  exact probe_eq_of_least base dest (dest.length + 1) 0 k (Nat.zero_le k)
    (by omega) hk (fun j _ hj => hmin j hj)

theorem next_free_name_not_mem (base : String) (dest : List String) :
    next_free_name base dest ∉ dest := by
  obtain ⟨k0, _, hk0⟩ := exists_free_candidate base dest
  have hex : ∃ k, candidate base k ∉ dest := ⟨k0, hk0⟩
  rw [next_free_name_eq_least base dest (Nat.find hex) (Nat.find_spec hex)
    (fun j hj => not_not.mp (Nat.find_min hex hj))]
  exact Nat.find_spec hex

end PhotoFormatter

namespace Spec2Proof

open PhotoFormatter

/-- C6: for every source stem and destination snapshot the namer returns
the first unused name of the sequence `stem_10x15.jpg`, `stem_10x15_1.jpg`,
`stem_10x15_2.jpg`, …; it never returns a name already present in the
snapshot; and three sequential calls with the same stem — each returned
name then created, no external deletions — yield exactly those first three
names in order (provided, as the scenario presumes, the snapshot does not
already contain them). -/
theorem C6_output_namer (base : String) (dest : List String) :
    candidate base 0 = base ++ "_10x15.jpg" ∧
    candidate base 1 = base ++ "_10x15_1.jpg" ∧
    candidate base 2 = base ++ "_10x15_2.jpg" ∧
    next_free_name base dest ∉ dest ∧
    (∃ k, next_free_name base dest = candidate base k ∧
      candidate base k ∉ dest ∧ ∀ j < k, candidate base j ∈ dest) ∧
    (candidate base 0 ∉ dest → candidate base 1 ∉ dest → candidate base 2 ∉ dest →
      next_free_name base dest = candidate base 0 ∧
      next_free_name base (dest ++ [candidate base 0]) = candidate base 1 ∧
      next_free_name base (dest ++ [candidate base 0, candidate base 1]) =
        candidate base 2) := by
  refine ⟨rfl, ?_, ?_, next_free_name_not_mem base dest, ?_, ?_⟩
  · show base ++ "_10x15_" ++ pyStr 1 ++ ".jpg" = base ++ "_10x15_1.jpg"
    have h1 : pyStr 1 = "1" := by decide
    rw [h1, String.append_assoc, String.append_assoc]
    rfl
  · show base ++ "_10x15_" ++ pyStr 2 ++ ".jpg" = base ++ "_10x15_2.jpg"
    have h2 : pyStr 2 = "2" := by decide
    rw [h2, String.append_assoc, String.append_assoc]
    rfl
  · obtain ⟨k0, _, hk0⟩ := exists_free_candidate base dest
    have hex : ∃ k, candidate base k ∉ dest := ⟨k0, hk0⟩
    exact ⟨Nat.find hex,
      next_free_name_eq_least base dest (Nat.find hex) (Nat.find_spec hex)
        (fun j hj => not_not.mp (Nat.find_min hex hj)),
      Nat.find_spec hex,
      fun j hj => not_not.mp (Nat.find_min hex hj)⟩
  · intro h0 h1 h2
    have hinj := candidate_injective base
    refine ⟨next_free_name_eq_least base dest 0 h0 (by omega), ?_, ?_⟩
    · apply next_free_name_eq_least
      · intro hmem
        rcases List.mem_append.mp hmem with h | h
        · exact h1 h
        · exact absurd (hinj (List.mem_singleton.mp h)) (by omega)
      · intro j hj
        have hj0 : j = 0 := by omega
        subst hj0
        exact List.mem_append.mpr (Or.inr (List.mem_singleton.mpr rfl))
    · apply next_free_name_eq_least
      · intro hmem
        rcases List.mem_append.mp hmem with h | h
        · exact h2 h
        · rcases List.mem_cons.mp h with h' | h'
          · exact absurd (hinj h') (by omega)
          · exact absurd (hinj (List.mem_singleton.mp h')) (by omega)
      · intro j hj
        interval_cases j
        · exact List.mem_append.mpr (Or.inr (by simp))
        · exact List.mem_append.mpr (Or.inr (by simp))

/-- Witness for C6: stem `photo` against a snapshot containing one
unrelated file; the three sequential calls return `photo_10x15.jpg`,
`photo_10x15_1.jpg`, `photo_10x15_2.jpg`. -/
theorem C6_output_namer_witness :
    next_free_name "photo" ["other.jpg"] = "photo" ++ "_10x15.jpg" ∧
    next_free_name "photo" ["other.jpg", "photo" ++ "_10x15.jpg"] =
      candidate "photo" 1 ∧
    next_free_name "photo"
      ["other.jpg", "photo" ++ "_10x15.jpg", candidate "photo" 1] =
      candidate "photo" 2 := by
  have h := (C6_output_namer "photo" ["other.jpg"]).2.2.2.2.2
    (by decide) (by decide) (by decide)
  exact ⟨h.1, h.2.1, h.2.2⟩

end Spec2Proof

namespace PhotoFormatter

/-! ### Batch driver

Shallow embedding of `App.process_all` from `src/photo_formatter.py`.
Per file the driver checks the cancellation flag, skips HEIC/HEIF files
when the codec is unavailable, and otherwise runs the whole
decode → transpose → canvas → composite → name → save pipeline inside one
`try`: any exception is recorded as an error for that file and iteration
continues.  Decoding is `Option PILImage` (`none` = `Image.open` or a later
pure step raised); `canvas.save(dest, ...)`, which writes directly to the
final path, is a three-way result: success, an exception before the output
file is created, or an exception after creation (partial file left). -/

/-- Python's `str.lower()` (as used in `f.suffix.lower()`), modelled as a
character-wise lowercase map. -/
def pyLower (s : String) : String := ⟨s.data.map Char.toLower⟩

/-- Per-file outcome recorded by the driver (`OK` / `SKIP` / `ERR` log
lines backed by the `stats` counters). -/
inductive Outcome where
  | ok
  | skip
  | err
deriving DecidableEq, Repr

/-- Behaviour of `canvas.save(dest, ...)` for a given file: it may
succeed, raise before the output file is created, or raise after creating
it (the code writes straight to the final path, so this leaves a partial
file). -/
inductive SaveResult where
  | success
  | failBeforeCreate
  | failAfterCreate
deriving DecidableEq, Repr

/-- An eligible source file as the driver sees it: display name, stem,
suffix, the decode result (`none` when `Image.open`/decoding raises), and
the save behaviour. -/
structure SrcFile where
  name : String
  stem : String
  suffix : String
  img : Option PILImage
  save : SaveResult
deriving DecidableEq, Repr

/-- A file present in the destination directory: its name and whether it
is a complete, valid output (as opposed to a partial write). -/
structure DestEntry where
  path : String
  complete : Bool
deriving DecidableEq, Repr

/-- One iteration of the driver loop body (after the cancellation check):
the HEIC/HEIF skip, then the `try` block around decode, orientation,
canvas computation, compositing, collision-free naming and save.  Returns
the log record for the file and the new destination contents. -/
def processFile (heif_ok : Bool) (dpi : ℤ) (f : SrcFile) (dest : List DestEntry) :
    (String × Outcome) × List DestEntry :=
  if (pyLower f.suffix = ".heic" ∨ pyLower f.suffix = ".heif") ∧ heif_ok = false then
    ((f.name, Outcome.skip), dest)
  else
    match f.img with
    | none => ((f.name, Outcome.err), dest)
    | some im =>
      let im2 := exif_transpose im
      let tc := compute_target_canvas im2.width im2.height dpi
      let _canvas := fit_with_letterbox im2 tc.1 tc.2
      let destName := next_free_name f.stem (dest.map DestEntry.path)
      match f.save with
      | SaveResult.success => ((f.name, Outcome.ok), dest ++ [⟨destName, true⟩])
      | SaveResult.failBeforeCreate => ((f.name, Outcome.err), dest)
      | SaveResult.failAfterCreate => ((f.name, Outcome.err), dest ++ [⟨destName, false⟩])

/-- Result of a run: the ordered per-file outcome log, the final
destination contents, and the cancellation flag as read for the final
status message (`"Done." if not self.stop_flag else "Stopped."`). -/
structure RunResult where
  log : List (String × Outcome)
  dest : List DestEntry
  stopped : Bool
deriving DecidableEq, Repr

/-- The driver loop over the file list.  `i` is the loop clock: the
cancellation flag is read once at the top of each iteration
(`if self.stop_flag: break`) and once after the loop for the final status
message. -/
def runFiles (heif_ok : Bool) (stop : ℕ → Bool) (dpi : ℤ) :
    List SrcFile → ℕ → List DestEntry → RunResult
  | [], i, dest => ⟨[], dest, stop i⟩
  | f :: fs, i, dest =>
    if stop i then ⟨[], dest, true⟩
    else
      let step := processFile heif_ok dpi f dest
      let rest := runFiles heif_ok stop dpi fs (i + 1) step.2
      ⟨step.1 :: rest.log, rest.dest, rest.stopped⟩

/-- `process_all` from `src/photo_formatter.py`, over an already-discovered
file list and an initial destination snapshot. -/
def process_all (heif_ok : Bool) (stop : ℕ → Bool) (dpi : ℤ)
    (files : List SrcFile) (dest0 : List DestEntry) : RunResult :=
  runFiles heif_ok stop dpi files 0 dest0

/-- The `stats['ok']` counter: number of `ok` records in the log. -/
def okCount (log : List (String × Outcome)) : ℕ :=
  log.countP (fun e => decide (e.2 = Outcome.ok))

/-- The `stats['skip']` counter. -/
def skipCount (log : List (String × Outcome)) : ℕ :=
  log.countP (fun e => decide (e.2 = Outcome.skip))

/-- The `stats['err']` counter. -/
def errCount (log : List (String × Outcome)) : ℕ :=
  log.countP (fun e => decide (e.2 = Outcome.err))

/-- Number of complete (non-partial) files in the destination. -/
def completeCount (dest : List DestEntry) : ℕ :=
  dest.countP (fun e => e.complete)

/-- Final status message: `"Done." if not self.stop_flag else "Stopped."`. -/
def final_status (r : RunResult) : String :=
  if r.stopped then "Stopped." else "Done."

/-- The outcome the driver records for a file, by the classification the
loop body performs: skip iff the suffix is a HEIC/HEIF alias and the codec
is unavailable, error iff decoding raises or the save fails, ok otherwise. -/
def expectedOutcome (heif_ok : Bool) (f : SrcFile) : Outcome :=
  if (pyLower f.suffix = ".heic" ∨ pyLower f.suffix = ".heif") ∧ heif_ok = false then
    Outcome.skip
  else
    match f.img with
    | none => Outcome.err
    | some _ =>
      match f.save with
      | SaveResult.success => Outcome.ok
      | SaveResult.failBeforeCreate => Outcome.err
      | SaveResult.failAfterCreate => Outcome.err

theorem processFile_fst (heif_ok : Bool) (dpi : ℤ) (f : SrcFile) (dest : List DestEntry) :
    (processFile heif_ok dpi f dest).1 = (f.name, expectedOutcome heif_ok f) := by
  obtain ⟨nm, st, sf, img, sv⟩ := f
  by_cases hc : (pyLower sf = ".heic" ∨ pyLower sf = ".heif") ∧ heif_ok = false
  · simp [processFile, expectedOutcome, hc]
  · cases img <;> cases sv <;> simp [processFile, expectedOutcome, hc]

theorem processFile_completeCount (heif_ok : Bool) (dpi : ℤ) (f : SrcFile)
    (dest : List DestEntry) :
    completeCount (processFile heif_ok dpi f dest).2 =
      completeCount dest +
        (if (processFile heif_ok dpi f dest).1.2 = Outcome.ok then 1 else 0) := by
  obtain ⟨nm, st, sf, img, sv⟩ := f
  by_cases hc : (pyLower sf = ".heic" ∨ pyLower sf = ".heif") ∧ heif_ok = false
  · simp [processFile, hc]
  · cases img <;> cases sv <;>
      simp [processFile, hc, completeCount, List.countP_append]

end PhotoFormatter

namespace PhotoFormatter

theorem runFiles_no_stop (heif_ok : Bool) (dpi : ℤ) :
    ∀ (files : List SrcFile) (i : ℕ) (dest : List DestEntry),
      (runFiles heif_ok (fun _ => false) dpi files i dest).log =
        files.map (fun f => (f.name, expectedOutcome heif_ok f)) ∧
      completeCount (runFiles heif_ok (fun _ => false) dpi files i dest).dest =
        completeCount dest +
          okCount ((runFiles heif_ok (fun _ => false) dpi files i dest).log) ∧
      (runFiles heif_ok (fun _ => false) dpi files i dest).stopped = false := by
  intro files
  induction files with
  | nil =>
    intro i dest
    simp [runFiles, okCount]
  | cons f fs ih =>
    intro i dest
    unfold runFiles
    rw [if_neg (by simp)]
    dsimp only
    obtain ⟨hlog, hcnt, hstop⟩ := ih (i + 1) (processFile heif_ok dpi f dest).2
    refine ⟨?_, ?_, hstop⟩
    · rw [hlog, processFile_fst]
      rfl
    · rw [hcnt, processFile_completeCount, hlog]
      simp only [okCount, List.countP_cons, processFile_fst]
      by_cases hok : expectedOutcome heif_ok f = Outcome.ok
      · simp [hok]
        omega
      · simp [hok]

theorem runFiles_stop_len (heif_ok : Bool) (dpi : ℤ) (stop : ℕ → Bool) (i : ℕ)
    (hmono : ∀ j k, j ≤ k → stop j = true → stop k = true) (hi : stop i = true) :
    ∀ (files : List SrcFile) (n : ℕ) (dest : List DestEntry),
      n + (runFiles heif_ok stop dpi files n dest).log.length ≤ max n i := by
  intro files
  induction files with
  | nil =>
    intro n dest
    simp [runFiles]
  | cons f fs ih =>
    intro n dest
    unfold runFiles
    by_cases hn : stop n = true
    · rw [if_pos hn]
      simp
    · rw [if_neg hn]
      dsimp only
      have hni : n < i := by
        by_contra hge
        exact hn (hmono i n (by omega) hi)
      have := ih (n + 1) (processFile heif_ok dpi f dest).2
      simp only [List.length_cons]
      omega

theorem runFiles_stopped (heif_ok : Bool) (dpi : ℤ) (stop : ℕ → Bool) (i : ℕ)
    (hmono : ∀ j k, j ≤ k → stop j = true → stop k = true) (hi : stop i = true) :
    ∀ (files : List SrcFile) (n : ℕ) (dest : List DestEntry), i ≤ n + files.length →
      (runFiles heif_ok stop dpi files n dest).stopped = true := by
  intro files
  induction files with
  | nil =>
    intro n dest hn
    simp only [List.length_nil, Nat.add_zero] at hn
    simpa [runFiles] using hmono i n hn hi
  | cons f fs ih =>
    intro n dest hn
    unfold runFiles
    by_cases hstop : stop n = true
    · rw [if_pos hstop]
    · rw [if_neg hstop]
      dsimp only
      exact ih (n + 1) (processFile heif_ok dpi f dest).2
        (by simp only [List.length_cons] at hn; omega)

end PhotoFormatter

namespace Spec2Proof

open PhotoFormatter

/-- C4: without cancellation the driver records exactly one outcome per
eligible file, in order, and continues past failures: the log is the map of
the per-file classification over the file list (skip iff the extension is a
HEIC/HEIF alias with the codec unavailable, error iff decoding raises or
the save fails, ok on success); each ok adds exactly one complete output
file, so a corrupted file among valid ones is recorded as `err` while every
remaining valid file is still processed and written — one bad file never
aborts the run. -/
theorem C4_per_file_isolation (heif_ok : Bool) (dpi : ℤ) (files : List SrcFile)
    (dest0 : List DestEntry) :
    (process_all heif_ok (fun _ => false) dpi files dest0).log =
      files.map (fun f => (f.name, expectedOutcome heif_ok f)) ∧
    completeCount (process_all heif_ok (fun _ => false) dpi files dest0).dest =
      completeCount dest0 +
        okCount (process_all heif_ok (fun _ => false) dpi files dest0).log ∧
    (∀ f : SrcFile,
      ((pyLower f.suffix = ".heic" ∨ pyLower f.suffix = ".heif") ∧ heif_ok = false) →
      expectedOutcome heif_ok f = Outcome.skip) ∧
    (∀ f : SrcFile,
      ¬((pyLower f.suffix = ".heic" ∨ pyLower f.suffix = ".heif") ∧ heif_ok = false) →
      f.img = none → expectedOutcome heif_ok f = Outcome.err) ∧
    (∀ f : SrcFile,
      ¬((pyLower f.suffix = ".heic" ∨ pyLower f.suffix = ".heif") ∧ heif_ok = false) →
      f.img ≠ none → f.save ≠ SaveResult.success →
      expectedOutcome heif_ok f = Outcome.err) ∧
    (∀ f : SrcFile,
      ¬((pyLower f.suffix = ".heic" ∨ pyLower f.suffix = ".heif") ∧ heif_ok = false) →
      f.img ≠ none → f.save = SaveResult.success →
      expectedOutcome heif_ok f = Outcome.ok) := by
  obtain ⟨hlog, hcnt, _⟩ := runFiles_no_stop heif_ok dpi files 0 dest0
  refine ⟨hlog, hcnt, ?_, ?_, ?_, ?_⟩
  · intro f hc
    simp [expectedOutcome, hc]
  · intro f hc himg
    simp [expectedOutcome, hc, himg]
  · intro f hc himg hsv
    obtain ⟨nm, st, sf, img, sv⟩ := f
    cases img with
    | none => exact absurd rfl himg
    | some im => cases sv <;> simp_all [expectedOutcome]
  · intro f hc himg hsv
    obtain ⟨nm, st, sf, img, sv⟩ := f
    cases img with
    | none => exact absurd rfl himg
    | some im => simp_all [expectedOutcome]

/-- Witness for C4: three files — a valid JPEG, a corrupted file whose
decode raises, a valid PNG — yield the outcome log ok, err, ok, and two
complete output files. -/
theorem C4_per_file_isolation_witness :
    (process_all true (fun _ => false) 300
      [⟨"a.jpg", "a", ".jpg", some ⟨400, 300, ImageMode.RGB, false, 1⟩,
        SaveResult.success⟩,
       ⟨"bad.jpg", "bad", ".jpg", none, SaveResult.success⟩,
       ⟨"c.png", "c", ".png", some ⟨300, 400, ImageMode.RGB, false, 1⟩,
        SaveResult.success⟩] []).log =
      [("a.jpg", Outcome.ok), ("bad.jpg", Outcome.err), ("c.png", Outcome.ok)] ∧
    completeCount (process_all true (fun _ => false) 300
      [⟨"a.jpg", "a", ".jpg", some ⟨400, 300, ImageMode.RGB, false, 1⟩,
        SaveResult.success⟩,
       ⟨"bad.jpg", "bad", ".jpg", none, SaveResult.success⟩,
       ⟨"c.png", "c", ".png", some ⟨300, 400, ImageMode.RGB, false, 1⟩,
        SaveResult.success⟩] []).dest = 2 := by
  have h := C4_per_file_isolation true 300
    [⟨"a.jpg", "a", ".jpg", some ⟨400, 300, ImageMode.RGB, false, 1⟩,
      SaveResult.success⟩,
     ⟨"bad.jpg", "bad", ".jpg", none, SaveResult.success⟩,
     ⟨"c.png", "c", ".png", some ⟨300, 400, ImageMode.RGB, false, 1⟩,
      SaveResult.success⟩] []
  refine ⟨?_, ?_⟩
  · rw [h.1]
    decide
  · rw [h.2.1, h.1]
    decide

/-- C5: cancellation is checked only at file-iteration boundaries.  With a
monotone cancellation flag: once the flag is set at time `i`, at most `i`
files are ever started (each started file runs to completion as a unit and
contributes its single log record); if the flag is set no later than the
file count, the run ends with the `Stopped.` status, not `Done.`; and in
the concrete three-file scenario where the flag is set right after the
first file completes, the log shows exactly that one processed file,
`processed == 1`, and files 2 and 3 are never started. -/
theorem C5_cancellation_boundaries :
    (∀ (heif_ok : Bool) (stop : ℕ → Bool) (dpi : ℤ) (files : List SrcFile)
        (dest0 : List DestEntry) (i : ℕ),
        (∀ j k, j ≤ k → stop j = true → stop k = true) → stop i = true →
        (process_all heif_ok stop dpi files dest0).log.length ≤ i) ∧
    (∀ (heif_ok : Bool) (stop : ℕ → Bool) (dpi : ℤ) (files : List SrcFile)
        (dest0 : List DestEntry) (i : ℕ),
        (∀ j k, j ≤ k → stop j = true → stop k = true) → stop i = true →
        i ≤ files.length →
        (process_all heif_ok stop dpi files dest0).stopped = true ∧
        final_status (process_all heif_ok stop dpi files dest0) = "Stopped.") ∧
    (∀ (heif_ok : Bool) (dpi : ℤ) (f1 f2 f3 : SrcFile) (dest0 : List DestEntry),
        expectedOutcome heif_ok f1 = Outcome.ok →
        (process_all heif_ok (fun j => decide (1 ≤ j)) dpi [f1, f2, f3] dest0).log =
          [(f1.name, Outcome.ok)] ∧
        okCount (process_all heif_ok (fun j => decide (1 ≤ j)) dpi
          [f1, f2, f3] dest0).log = 1 ∧
        (process_all heif_ok (fun j => decide (1 ≤ j)) dpi [f1, f2, f3] dest0).stopped
          = true ∧
        final_status (process_all heif_ok (fun j => decide (1 ≤ j)) dpi
          [f1, f2, f3] dest0) = "Stopped.") := by
  refine ⟨?_, ?_, ?_⟩
  · intro heif_ok stop dpi files dest0 i hmono hi
    have h := runFiles_stop_len heif_ok dpi stop i hmono hi files 0 dest0
    unfold process_all
    omega
  · intro heif_ok stop dpi files dest0 i hmono hi hlen
    have h := runFiles_stopped heif_ok dpi stop i hmono hi files 0 dest0 (by omega)
    refine ⟨h, ?_⟩
    unfold final_status process_all
    rw [h]
    rfl
  · intro heif_ok dpi f1 f2 f3 dest0 hf1
    have hrun : process_all heif_ok (fun j => decide (1 ≤ j)) dpi [f1, f2, f3] dest0 =
        ⟨[(f1.name, Outcome.ok)], (processFile heif_ok dpi f1 dest0).2, true⟩ := by
      unfold process_all
      rw [runFiles, if_neg (by simp)]
      dsimp only
      rw [runFiles, if_pos (by simp)]
      rw [processFile_fst, hf1]
    rw [hrun]
    refine ⟨rfl, ?_, rfl, rfl⟩
    simp [okCount]

/-- Witness for C5: the concrete three-file scenario with the flag raised
after the first file. -/
theorem C5_cancellation_boundaries_witness :
    (process_all true (fun j => decide (1 ≤ j)) 300
      [⟨"a.jpg", "a", ".jpg", some ⟨400, 300, ImageMode.RGB, false, 1⟩,
        SaveResult.success⟩,
       ⟨"b.jpg", "b", ".jpg", some ⟨500, 200, ImageMode.RGB, false, 1⟩,
        SaveResult.success⟩,
       ⟨"c.png", "c", ".png", some ⟨300, 400, ImageMode.RGB, false, 1⟩,
        SaveResult.success⟩] []).log = [("a.jpg", Outcome.ok)] ∧
    (process_all true (fun j => decide (1 ≤ j)) 300
      [⟨"a.jpg", "a", ".jpg", some ⟨400, 300, ImageMode.RGB, false, 1⟩,
        SaveResult.success⟩,
       ⟨"b.jpg", "b", ".jpg", some ⟨500, 200, ImageMode.RGB, false, 1⟩,
        SaveResult.success⟩,
       ⟨"c.png", "c", ".png", some ⟨300, 400, ImageMode.RGB, false, 1⟩,
        SaveResult.success⟩] []).stopped = true := by
  have h := C5_cancellation_boundaries.2.2 true 300
    ⟨"a.jpg", "a", ".jpg", some ⟨400, 300, ImageMode.RGB, false, 1⟩,
      SaveResult.success⟩
    ⟨"b.jpg", "b", ".jpg", some ⟨500, 200, ImageMode.RGB, false, 1⟩,
      SaveResult.success⟩
    ⟨"c.png", "c", ".png", some ⟨300, 400, ImageMode.RGB, false, 1⟩,
      SaveResult.success⟩ [] (by decide)
  exact ⟨h.1, h.2.2.1⟩

/-- Counterexample to C7: the code calls `canvas.save(dest, ...)` directly
on the final path with no temp-file-then-rename, so an encode failure that
occurs after the output file has been created leaves a partial file behind:
in this one-file run the file is recorded as `err`, yet its (incomplete)
output is present in the destination rather than absent. -/
theorem C7_counterexample_partial_output :
    (process_all true (fun _ => false) 300
      [⟨"bad.jpg", "bad", ".jpg", some ⟨400, 300, ImageMode.RGB, false, 1⟩,
        SaveResult.failAfterCreate⟩] []).log = [("bad.jpg", Outcome.err)] ∧
    (process_all true (fun _ => false) 300
      [⟨"bad.jpg", "bad", ".jpg", some ⟨400, 300, ImageMode.RGB, false, 1⟩,
        SaveResult.failAfterCreate⟩] []).dest =
      [⟨"bad" ++ "_10x15.jpg", false⟩] := by
  decide

/-- C7 as amended: failures that occur before the output write begins —
decode/composite failures (the whole `try` body up to the save) and save
failures that raise before the output file is created — leave the failing
file's output absent from the destination; but because the encoded result
is written directly to the final path (no encode-then-atomic-place or
write-to-temp-then-rename), a save failure after file creation records
`err` while leaving a partial output file present. -/
theorem C7_absent_only_before_write (heif_ok : Bool) (dpi : ℤ) (f : SrcFile)
    (dest : List DestEntry) :
    (f.img = none → (processFile heif_ok dpi f dest).2 = dest) ∧
    (f.save = SaveResult.failBeforeCreate → (processFile heif_ok dpi f dest).2 = dest) ∧
    (¬((pyLower f.suffix = ".heic" ∨ pyLower f.suffix = ".heif") ∧ heif_ok = false) →
      f.img ≠ none → f.save = SaveResult.failAfterCreate →
      (processFile heif_ok dpi f dest).1.2 = Outcome.err ∧
      (processFile heif_ok dpi f dest).2 =
        dest ++ [⟨next_free_name f.stem (dest.map DestEntry.path), false⟩]) := by
  obtain ⟨nm, st, sf, img, sv⟩ := f
  by_cases hc : (pyLower sf = ".heic" ∨ pyLower sf = ".heif") ∧ heif_ok = false
  · refine ⟨?_, ?_, ?_⟩
    · intro _; simp [processFile, hc]
    · intro _; simp [processFile, hc]
    · intro hnc; exact absurd hc hnc
  · refine ⟨?_, ?_, ?_⟩
    · intro himg
      subst himg
      simp [processFile, hc]
    · intro hsv
      subst hsv
      cases img <;> simp [processFile, hc]
    · intro _ himg hsv
      subst hsv
      cases img with
      | none => exact absurd rfl himg
      | some im => exact ⟨by simp [processFile, hc], by simp [processFile, hc]⟩

/-- Witness for C7 as amended: a decode failure leaves the destination
unchanged. -/
theorem C7_absent_only_before_write_witness :
    (processFile true 300 ⟨"bad.jpg", "bad", ".jpg", none, SaveResult.success⟩
      [⟨"x.jpg", true⟩]).2 = [⟨"x.jpg", true⟩] :=
  (C7_absent_only_before_write true 300
    ⟨"bad.jpg", "bad", ".jpg", none, SaveResult.success⟩ [⟨"x.jpg", true⟩]).1 rfl

end Spec2Proof
